import Mathlib

/-!
Verification of the stateswitch state-machine library against its
specification.  The documentation/export subsystem is embedded from
`statemachine_doc.go`.  The selection/execution engine (`Run`,
`AddTransition`, `NewStateMachine`) is not among the provided source
files — only its README usage and the specification describe it — so it
is modelled from the specification (sections 4.2 and 4.3), as marked on
each such definition.
-/

/-- Documentation attached to a transition rule (`TransitionRuleDoc` in
statemachine_doc.go). -/
structure TransitionRuleDoc where
  name : String
  description : String

/-- Documentation attached to a state (`StateDoc` in statemachine_doc.go). -/
structure StateDoc where
  name : String
  description : String

/-- Documentation attached to a transition type (`TransitionTypeDoc` in
statemachine_doc.go). -/
structure TransitionTypeDoc where
  name : String
  description : String

/-- Modelled from the spec: the rule record of section 3 (the Go file
declaring `TransitionRule` for the engine is not among the sources; its
fields are listed in section 3 of the spec and read by
statemachine_doc.go).  `E` is the entity type, `A` the opaque
transition-arguments type, `ε` the error type of caller-supplied
actions.  `State` and `TransitionType` are opaque string-like labels and
are embedded as `String`. -/
structure TransitionRule (E A ε : Type) where
  transitionType : String
  sourceStates : List String
  destinationState : String
  condition : Option (E → A → Bool) := none
  transition : Option (E → A → Except ε E) := none
  postTransition : Option (E → A → Except ε E) := none
  documentation : TransitionRuleDoc := { name := "", description := "" }

/-- State machine record: the rule store plus the two documentation maps
of `stateMachineDocumentation` (statemachine_doc.go).  The Go rule store
is a map from transition type to the slice of rules registered for that
type, in registration order; it is represented here by the flat
registration-order list, with each map entry recovered by `rulesFor`.
The Go documentation maps are represented as association lists whose
keys are unique by construction (`setAssoc` inserts or replaces, exactly
like a Go map assignment). -/
structure stateMachine (E A ε : Type) where
  transitionRules : List (TransitionRule E A ε)
  stateDocs : List (String × StateDoc)
  transitionTypeDocs : List (String × TransitionTypeDoc)

variable {E A ε : Type}

/-- Go map assignment `m[k] = v` on the association-list representation:
replaces the entry for `k` if present, otherwise appends it. -/
def setAssoc (k : String) (v : α) : List (String × α) → List (String × α)
  | [] => [(k, v)]
  | (k1, v1) :: rest => if k = k1 then (k, v) :: rest else (k1, v1) :: setAssoc k v rest

/-- Go map read `m[k]` on the association-list representation. -/
def lookupAssoc (k : String) : List (String × α) → Option α
  | [] => none
  | (k1, v1) :: rest => if k1 = k then some v1 else lookupAssoc k rest

/-- Modelled from the spec: a candidate rule matches iff the entity's
current state is a member of its source states and its condition is
absent or evaluates true (spec section 4.3 step 3). -/
def ruleMatches (r : TransitionRule E A ε) (s : String) (e : E) (a : A) : Bool :=
  r.sourceStates.contains s &&
    (match r.condition with
     | none => true
     | some c => c e a)

/-- Modelled from the spec: the error taxonomy of section 4.3, each error
retaining the transition type and the entity state that triggered it. -/
inductive RunError (ε : Type) where
  | noMatchingTransition (transitionType : String) (state : String)
  | transitionActionFailed (transitionType : String) (state : String) (err : ε)
  | stateAssignmentFailed (transitionType : String) (state : String) (err : ε)
  | postTransitionActionFailed (transitionType : String) (state : String) (err : ε)
deriving DecidableEq

/-- Modelled from the spec: candidate selection of section 4.3 steps 2-3.
The candidates for a transition type are its partition of the rule store
in registration order; the first one matching the current state (and
condition) is selected. -/
def findMatching (rules : List (TransitionRule E A ε)) (tt s : String) (e : E) (a : A) :
    Option (TransitionRule E A ε) :=
  (rules.filter (fun r => r.transitionType == tt)).find? (fun r => ruleMatches r s e a)

/-- Modelled from the spec: the three-phase execution protocol of section
4.3 steps 5-8 applied to the selected rule.  Entities are mutated by
returning an updated value: a `Transition` or `PostTransition` action
returns either an error or the updated entity, and `setState` is the
entity's fallible set-state capability. -/
def execRule (setState : E → String → Except ε E) (tt s : String)
    (r : TransitionRule E A ε) (e : E) (a : A) : E × Option (RunError ε) :=
  match (match r.transition with
         | none => Except.ok e
         | some t => t e a) with
  | Except.error err => (e, some (RunError.transitionActionFailed tt s err))
  | Except.ok e1 =>
    match setState e1 r.destinationState with
    | Except.error err => (e1, some (RunError.stateAssignmentFailed tt s err))
    | Except.ok e2 =>
      match r.postTransition with
      | none => (e2, none)
      | some p =>
        match p e2 a with
        | Except.error err => (e2, some (RunError.postTransitionActionFailed tt s err))
        | Except.ok e3 => (e3, none)

/-- Modelled from the spec: `Run(transitionType, entity, args)` of section
4.3.  `getState` and `setState` are the entity capability contract of
section 6.  The result is the final entity value together with the
reported error, if any. -/
def Run (getState : E → String) (setState : E → String → Except ε E)
    (rules : List (TransitionRule E A ε)) (tt : String) (e : E) (a : A) :
    E × Option (RunError ε) :=
  match findMatching rules tt (getState e) e a with
  | none => (e, some (RunError.noMatchingTransition tt (getState e)))
  | some r => execRule setState tt (getState e) r e a

theorem find?_append_of_forall_false {α : Type} (p : α → Bool) (l1 l2 : List α)
    (h : ∀ x ∈ l1, p x = false) : (l1 ++ l2).find? p = l2.find? p := by
  induction l1 with
  | nil => rfl
  | cons x xs ih =>
    rw [List.cons_append, List.find?_cons_of_neg]
    · exact ih (fun y hy => h y (List.mem_cons_of_mem x hy))
    · simp [h x (List.mem_cons_self x xs)]

theorem findMatching_eq_first (rules1 rules2 : List (TransitionRule E A ε))
    (r : TransitionRule E A ε) (tt s : String) (e : E) (a : A)
    (hty : r.transitionType = tt)
    (hmatch : ruleMatches r s e a = true)
    (hearlier : ∀ r1 ∈ rules1, r1.transitionType = tt → ruleMatches r1 s e a = false) :
    findMatching (rules1 ++ r :: rules2) tt s e a = some r := by
  unfold findMatching
  rw [List.filter_append]
  rw [find?_append_of_forall_false]
  · rw [List.filter_cons]
    have hr : (r.transitionType == tt) = true := by simp [hty]
    rw [hr]
    simp only [if_true]
    exact List.find?_cons_of_pos _ hmatch
  · intro x hx
    have hmem := List.mem_filter.mp hx
    exact hearlier x hmem.1 (by simpa using hmem.2)

theorem findMatching_eq_none (rules : List (TransitionRule E A ε))
    (tt s : String) (e : E) (a : A)
    (h : ∀ r ∈ rules, r.transitionType = tt → ruleMatches r s e a = false) :
    findMatching rules tt s e a = none := by
  unfold findMatching
  apply List.find?_eq_none.mpr
  intro x hx
  have hmem := List.mem_filter.mp hx
  simp [h x hmem.1 (by simpa using hmem.2)]

/-- Claim C2: for every rule set and entity, `Run` scans the candidates for
the invoked transition type in registration order and executes exactly the
first rule whose source states contain the current state and whose
condition is absent or true; rules registered after the first match
(`rules2`, arbitrary, possibly also matching) are never considered, so
only the first match's Transition, PostTransition and DestinationState
take effect. -/
theorem run_first_match_wins
    (getState : E → String) (setState : E → String → Except ε E)
    (rules1 rules2 : List (TransitionRule E A ε)) (r : TransitionRule E A ε)
    (tt : String) (e : E) (a : A)
    (hty : r.transitionType = tt)
    (hmatch : ruleMatches r (getState e) e a = true)
    (hearlier : ∀ r1 ∈ rules1, r1.transitionType = tt →
      ruleMatches r1 (getState e) e a = false) :
    Run getState setState (rules1 ++ r :: rules2) tt e a
      = execRule setState tt (getState e) r e a := by
  unfold Run
  rw [findMatching_eq_first rules1 rules2 r tt (getState e) e a hty hmatch hearlier]

def okSet : String → String → Except String String := fun _ s => Except.ok s

def ruleAdvB : TransitionRule String Unit String :=
  { transitionType := "advance", sourceStates := ["a"], destinationState := "b" }

def ruleAdvC : TransitionRule String Unit String :=
  { transitionType := "advance", sourceStates := ["a"], destinationState := "c" }

/-- Witness for `run_first_match_wins`: two rules registered for type
"advance", both matching state "a"; the earlier rule is the one executed. -/
theorem run_first_match_wins_witness :
    ruleAdvB.transitionType = "advance"
    ∧ ruleMatches ruleAdvB "a" "a" () = true
    ∧ Run id okSet [ruleAdvB, ruleAdvC] "advance" "a" ()
        = execRule okSet "advance" "a" ruleAdvB "a" () :=
  ⟨rfl, by decide,
    run_first_match_wins id okSet [] [ruleAdvC] ruleAdvB "advance" "a" ()
      rfl (by decide) (by simp)⟩

/-- Claim C3: when the first matching rule's Transition action fails, Run
aborts at once: the returned entity is the original one (its state is
unchanged, no state assignment is attempted), the rule's PostTransition is
never invoked (the result does not depend on `r.postTransition`,
`r.destinationState` or `setState`), and the error is propagated wrapped
with the transition type and the entity state as context. -/
theorem run_transition_error_aborts
    (getState : E → String) (setState : E → String → Except ε E)
    (rules1 rules2 : List (TransitionRule E A ε)) (r : TransitionRule E A ε)
    (tt : String) (e : E) (a : A) (t : E → A → Except ε E) (err : ε)
    (hty : r.transitionType = tt)
    (hmatch : ruleMatches r (getState e) e a = true)
    (hearlier : ∀ r1 ∈ rules1, r1.transitionType = tt →
      ruleMatches r1 (getState e) e a = false)
    (htr : r.transition = some t)
    (herr : t e a = Except.error err) :
    Run getState setState (rules1 ++ r :: rules2) tt e a
      = (e, some (RunError.transitionActionFailed tt (getState e) err)) := by
  unfold Run
  rw [findMatching_eq_first rules1 rules2 r tt (getState e) e a hty hmatch hearlier]
  show execRule setState tt (getState e) r e a = _
  unfold execRule
  simp only [htr, herr]

def ruleFailT : TransitionRule String Unit String :=
  { transitionType := "go", sourceStates := ["a"], destinationState := "b",
    transition := some (fun _ _ => Except.error "boom"),
    postTransition := some (fun e _ => Except.ok e) }

/-- Witness for `run_transition_error_aborts`: a rule whose Transition
action fails with "boom" leaves the entity in state "a" and reports the
wrapped error, even though a PostTransition action is present. -/
theorem run_transition_error_aborts_witness :
    ruleFailT.transitionType = "go"
    ∧ ruleMatches ruleFailT "a" "a" () = true
    ∧ Run id okSet [ruleFailT] "go" "a" ()
        = ("a", some (RunError.transitionActionFailed "go" "a" "boom")) :=
  ⟨rfl, by decide,
    run_transition_error_aborts id okSet [] [] ruleFailT "go" "a" ()
      (fun _ _ => Except.error "boom") "boom" rfl (by decide) (by simp) rfl rfl⟩

/-- Claim C4: when the first matching rule's Transition action and the state
assignment succeed but its PostTransition action fails, Run still reports
an error while the entity keeps the committed destination state: the result
entity is the one produced by the successful state assignment, whose state
is the rule's DestinationState, and the PostTransition error is reported
wrapped with context. -/
theorem run_post_error_keeps_committed_state
    (getState : E → String) (setState : E → String → Except ε E)
    (rules1 rules2 : List (TransitionRule E A ε)) (r : TransitionRule E A ε)
    (tt : String) (e e1 e2 : E) (a : A)
    (t p : E → A → Except ε E) (err : ε)
    (hty : r.transitionType = tt)
    (hmatch : ruleMatches r (getState e) e a = true)
    (hearlier : ∀ r1 ∈ rules1, r1.transitionType = tt →
      ruleMatches r1 (getState e) e a = false)
    (htr : r.transition = some t)
    (hok : t e a = Except.ok e1)
    (hset : setState e1 r.destinationState = Except.ok e2)
    (hst : getState e2 = r.destinationState)
    (hpost : r.postTransition = some p)
    (hperr : p e2 a = Except.error err) :
    Run getState setState (rules1 ++ r :: rules2) tt e a
      = (e2, some (RunError.postTransitionActionFailed tt (getState e) err))
    ∧ getState (Run getState setState (rules1 ++ r :: rules2) tt e a).1
        = r.destinationState := by
  have hrun : Run getState setState (rules1 ++ r :: rules2) tt e a
      = (e2, some (RunError.postTransitionActionFailed tt (getState e) err)) := by
    unfold Run
    rw [findMatching_eq_first rules1 rules2 r tt (getState e) e a hty hmatch hearlier]
    show execRule setState tt (getState e) r e a = _
    unfold execRule
    simp only [htr, hok, hset, hpost, hperr]
  exact ⟨hrun, by rw [hrun]; exact hst⟩

def ruleFailP : TransitionRule String Unit String :=
  { transitionType := "go", sourceStates := ["a"], destinationState := "b",
    transition := some (fun e _ => Except.ok e),
    postTransition := some (fun _ _ => Except.error "late") }

/-- Witness for `run_post_error_keeps_committed_state`: a rule whose
PostTransition action fails after the state was set to "b" reports the
error while the entity remains in state "b". -/
theorem run_post_error_keeps_committed_state_witness :
    ruleFailP.transitionType = "go"
    ∧ ruleMatches ruleFailP "a" "a" () = true
    ∧ okSet "a" ruleFailP.destinationState = Except.ok "b"
    ∧ (Run id okSet [ruleFailP] "go" "a" ()
        = ("b", some (RunError.postTransitionActionFailed "go" "a" "late"))
      ∧ id (Run id okSet [ruleFailP] "go" "a" ()).1 = ruleFailP.destinationState) :=
  ⟨rfl, by decide, rfl,
    run_post_error_keeps_committed_state id okSet [] [] ruleFailP "go" "a" "a" "b" ()
      (fun e _ => Except.ok e) (fun _ _ => Except.error "late") "late"
      rfl (by decide) (by simp) rfl rfl rfl rfl rfl rfl⟩

/-- Claim C5: when no registered rule for the invoked transition type
matches the entity's current state (in particular when the type has no
rules at all), Run returns the NoMatchingTransition error carrying the
transition type and the current state, and the entity is unchanged. -/
theorem run_no_match_leaves_state_unchanged
    (getState : E → String) (setState : E → String → Except ε E)
    (rules : List (TransitionRule E A ε)) (tt : String) (e : E) (a : A)
    (h : ∀ r ∈ rules, r.transitionType = tt →
      ruleMatches r (getState e) e a = false) :
    Run getState setState rules tt e a
      = (e, some (RunError.noMatchingTransition tt (getState e))) := by
  unfold Run
  rw [findMatching_eq_none rules tt (getState e) e a h]

/-- Witness for `run_no_match_leaves_state_unchanged`: invoking the
transition type "missing", for which no rule is registered, returns
NoMatchingTransition with the type and the current state, leaving the
entity in state "a". -/
theorem run_no_match_leaves_state_unchanged_witness :
    (∀ r ∈ [ruleAdvB], r.transitionType = "missing" →
      ruleMatches r "a" "a" () = false)
    ∧ Run id okSet [ruleAdvB] "missing" "a" ()
        = ("a", some (RunError.noMatchingTransition "missing" "a")) :=
  ⟨by intro r hr hty; simp [ruleAdvB] at hr; rw [hr] at hty; exact absurd hty (by decide),
    run_no_match_leaves_state_unchanged id okSet [ruleAdvB] "missing" "a" ()
      (by intro r hr hty; simp [ruleAdvB] at hr; rw [hr] at hty; exact absurd hty (by decide))⟩

/-- Node of the exported graph (`TransitionRuleNode` in
statemachine_doc.go); its ID is the documented state's human-readable
name. -/
structure TransitionRuleNode where
  id : String
  description : String

/-- Edge of the exported graph (`TransitionRuleEdge` in
statemachine_doc.go). -/
structure TransitionRuleEdge where
  fromState : String
  toState : String
  description : String
  name : String

/-- Exported form of a transition rule (`TransitionRuleJSON` in
statemachine_doc.go). -/
structure TransitionRuleJSON where
  transitionType : String
  sourceStates : List String
  destinationState : String
  name : String
  description : String

/-- Exported form of a state's documentation (`StateJSON`). -/
structure StateJSON where
  name : String
  description : String

/-- Exported form of a transition type's documentation
(`TransitionTypeJSON`). -/
structure TransitionTypeJSON where
  name : String
  description : String

/-- The exported document (`StateMachineJSON` in statemachine_doc.go).
The two Go map fields `States` and `TransitionTypes` are represented as
lookup functions: building a Go map by inserting the entries of another
map in any iteration order copies it, and `encoding/json` renders a map
deterministically (keys sorted), so the map fields of the document are
fully described by their lookup functions.  The three slice fields keep
their construction order, which is what the JSON arrays render. -/
structure StateMachineJSON where
  transitionRuleNodes : List TransitionRuleNode
  transitionRuleEdges : List TransitionRuleEdge
  transitionRules : List TransitionRuleJSON
  states : String → Option StateJSON
  transitionTypes : String → Option TransitionTypeJSON

/-- DescribeState (statemachine_doc.go): `sm.stateDocs[state] = doc`. -/
def DescribeState (sm : stateMachine E A ε) (state : String) (doc : StateDoc) :
    stateMachine E A ε :=
  { sm with stateDocs := setAssoc state doc sm.stateDocs }

/-- DescribeTransitionType (statemachine_doc.go):
`sm.transitionTypeDocs[transitionType] = doc`. -/
def DescribeTransitionType (sm : stateMachine E A ε) (transitionType : String)
    (doc : TransitionTypeDoc) : stateMachine E A ε :=
  { sm with transitionTypeDocs := setAssoc transitionType doc sm.transitionTypeDocs }

/-- Documentation of the synthetic "initial" state registered by
`initStateMachineDocumentation` (statemachine_doc.go). -/
def initialStateDoc : StateDoc :=
  { name := "Initial",
    description := "The initial state of the state machine. This is a synthetic state that is not actually part of the state machine. It appears in documentation when transition rules hold a single source state that is an empty string" }

/-- initStateMachineDocumentation (statemachine_doc.go): resets both
documentation maps and pre-registers the synthetic "initial" state. -/
def initStateMachineDocumentation (sm : stateMachine E A ε) : stateMachine E A ε :=
  DescribeState { sm with stateDocs := [], transitionTypeDocs := [] }
    "initial" initialStateDoc

/-- Modelled from the spec: construction of a state machine (the Go file
declaring `NewStateMachine` is not among the sources); it starts with an
empty rule store and runs `initStateMachineDocumentation`, which is in
statemachine_doc.go. -/
def newStateMachine : stateMachine E A ε :=
  initStateMachineDocumentation
    { transitionRules := [], stateDocs := [], transitionTypeDocs := [] }

/-- Modelled from the spec: `AddTransition` (section 4.2) appends the rule
to the list keyed by its transition type, preserving prior entries'
relative order; on the flat registration-list representation this is an
append. -/
def AddTransition (sm : stateMachine E A ε) (r : TransitionRule E A ε) :
    stateMachine E A ε :=
  { sm with transitionRules := sm.transitionRules ++ [r] }

/-- Rules registered for one transition type, in registration order: the
partition `sm.transitionRules[k]` of the Go rule-store map. -/
def rulesFor (sm : stateMachine E A ε) (k : String) : List (TransitionRule E A ε) :=
  sm.transitionRules.filter (fun r => r.transitionType == k)

/-- Ascending sort of the collected transition-type keys, as done by
`sort.Slice` with a string less-than comparator in Export
(statemachine_doc.go); on distinct keys the sorted result is unique, so
insertion sort embeds it faithfully. -/
def sortKeys (l : List String) : List String :=
  List.insertionSort (· ≤ ·) l

/-- Resolution of a rule's source states for export (statemachine_doc.go,
Export): a source-state list that is exactly one empty string renders as
the literal token "initial"; otherwise the states are copied verbatim. -/
def resolveSourceStates (ss : List String) : List String :=
  if ss.length = 1 ∧ ss.getD 0 "x" = "" then ["initial"] else ss

/-- Exported record for one rule under one transition-type key
(statemachine_doc.go, Export main loop). -/
def ruleToJSON (k : String) (r : TransitionRule E A ε) : TransitionRuleJSON :=
  { transitionType := k,
    sourceStates := resolveSourceStates r.sourceStates,
    destinationState := r.destinationState,
    name := r.documentation.name,
    description := r.documentation.description }

/-- Exported edges for one rule: one edge per resolved source state, going
to the rule's destination, described by the rule's description and named
by the transition type (statemachine_doc.go, Export main loop). -/
def ruleEdges (k : String) (r : TransitionRule E A ε) : List TransitionRuleEdge :=
  (resolveSourceStates r.sourceStates).map (fun s =>
    { fromState := s,
      toState := r.destinationState,
      description := r.documentation.description,
      name := k })

/-- Export (statemachine_doc.go).  Go iterates its maps in an order the
language does not fix; each such iteration is made explicit here as a
parameter: `keysOrder` is the order in which the keys of the rule-store
map are collected (the code then sorts them), `stateOrder` the iteration
order of the `stateDocs` map and `ttOrder` that of the
`transitionTypeDocs` map.  An order parameter is valid for a machine when
it is a permutation of the corresponding map's entries (see
`ValidKeysOrder`, `ValidStateOrder`, `ValidTTOrder`). -/
def Export (sm : stateMachine E A ε) (keysOrder : List String)
    (stateOrder : List (String × StateDoc))
    (ttOrder : List (String × TransitionTypeDoc)) : StateMachineJSON :=
  { transitionRules :=
      (sortKeys keysOrder).flatMap (fun k => (rulesFor sm k).map (ruleToJSON k)),
    transitionRuleEdges :=
      (sortKeys keysOrder).flatMap (fun k => (rulesFor sm k).flatMap (ruleEdges k)),
    transitionRuleNodes :=
      stateOrder.map (fun p => { id := p.2.name, description := p.2.description }),
    states := fun k =>
      (lookupAssoc k stateOrder).map (fun d => { name := d.name, description := d.description }),
    transitionTypes := fun k =>
      (lookupAssoc k ttOrder).map (fun d => { name := d.name, description := d.description }) }

/-- Valid collection order for the rule-store map's keys: a permutation of
the distinct transition types in the store. -/
def ValidKeysOrder (sm : stateMachine E A ε) (ko : List String) : Prop :=
  ko.Perm ((sm.transitionRules.map (fun r => r.transitionType)).dedup)

/-- Valid iteration order for the `stateDocs` map: a permutation of its
entries. -/
def ValidStateOrder (sm : stateMachine E A ε) (so : List (String × StateDoc)) : Prop :=
  so.Perm sm.stateDocs

/-- Valid iteration order for the `transitionTypeDocs` map: a permutation
of its entries. -/
def ValidTTOrder (sm : stateMachine E A ε) (o : List (String × TransitionTypeDoc)) : Prop :=
  o.Perm sm.transitionTypeDocs

/-- Export as a state transformer: the Go method reads the receiver and
never assigns to its fields, so the receiver it leaves behind is the one
it was called on. -/
def ExportSt (sm : stateMachine E A ε) (keysOrder : List String)
    (stateOrder : List (String × StateDoc))
    (ttOrder : List (String × TransitionTypeDoc)) :
    StateMachineJSON × stateMachine E A ε :=
  (Export sm keysOrder stateOrder ttOrder, sm)

/-- AsJSON (statemachine_doc.go) as a state transformer: it marshals the
result of Export; marshalling this document type cannot fail, so the
error branch is unreachable and the success value is the document (the
byte rendering is deterministic in the document, see `StateMachineJSON`). -/
def AsJSONSt (sm : stateMachine E A ε) (keysOrder : List String)
    (stateOrder : List (String × StateDoc))
    (ttOrder : List (String × TransitionTypeDoc)) :
    Except String StateMachineJSON × stateMachine E A ε :=
  (Except.ok (Export sm keysOrder stateOrder ttOrder), sm)

theorem resolveSourceStates_eq (ss : List String) :
    resolveSourceStates ss = if ss = [""] then ["initial"] else ss := by
  match ss with
  | [] => simp [resolveSourceStates]
  | [s] =>
    by_cases h : s = ""
    · subst h; simp [resolveSourceStates]
    · simp [resolveSourceStates, h]
  | s :: s1 :: rest => simp [resolveSourceStates]

/-- Claim C6: in the exported transition_rules list, every rule's source
states render as the single literal token "initial" exactly when the
rule's SourceStates is the single-element list holding the reserved
empty-string state, and verbatim otherwise. -/
theorem export_reserved_initial_rendering (sm : stateMachine E A ε)
    (ko : List String) (so : List (String × StateDoc))
    (tto : List (String × TransitionTypeDoc)) :
    (Export sm ko so tto).transitionRules.map (fun j => j.sourceStates)
      = (sortKeys ko).flatMap (fun k => (rulesFor sm k).map (fun r =>
          if r.sourceStates = [""] then ["initial"] else r.sourceStates)) := by
  simp only [Export, List.map_flatMap, List.map_map, Function.comp_def, ruleToJSON,
    resolveSourceStates_eq]

theorem sortKeys_sorted (l : List String) : (sortKeys l).Sorted (· ≤ ·) :=
  List.sorted_insertionSort _ l

theorem sortKeys_perm (l : List String) : (sortKeys l).Perm l :=
  List.perm_insertionSort _ l

theorem sortKeys_eq_of_perm {l1 l2 : List String} (h : l1.Perm l2) :
    sortKeys l1 = sortKeys l2 :=
  List.eq_of_perm_of_sorted
    ((sortKeys_perm l1).trans (h.trans (sortKeys_perm l2).symm))
    (sortKeys_sorted l1) (sortKeys_sorted l2)

theorem sorted_map_tag_flatMap {β : Type} (keys : List String)
    (hs : keys.Sorted (· ≤ ·)) (f : String → List β) (tag : β → String)
    (htag : ∀ k, ∀ x ∈ f k, tag x = k) :
    ((keys.flatMap f).map tag).Sorted (· ≤ ·) := by
  induction keys with
  | nil => simp [List.Sorted]
  | cons k ks ih =>
    rw [List.flatMap_cons, List.map_append]
    have hks := (List.sorted_cons.mp hs).2
    have hrel := (List.sorted_cons.mp hs).1
    apply List.pairwise_append.mpr
    refine ⟨?_, ih hks, ?_⟩
    · apply List.pairwise_of_forall_mem_list
      intro a ha b hb
      obtain ⟨x, hx, hxa⟩ := List.mem_map.mp ha
      obtain ⟨y, hy, hyb⟩ := List.mem_map.mp hb
      rw [← hxa, ← hyb, htag k x hx, htag k y hy]
    · intro a ha b hb
      obtain ⟨x, hx, hxa⟩ := List.mem_map.mp ha
      obtain ⟨y, hy, hyb⟩ := List.mem_map.mp hb
      obtain ⟨k1, hk1, hyk1⟩ := List.mem_flatMap.mp hy
      rw [← hxa, ← hyb, htag k x hx, htag k1 y hyk1]
      exact hrel k1 hk1

theorem filter_flatMap_group {β : Type} (keys : List String) (hnd : keys.Nodup)
    (f : String → List β) (tag : β → String)
    (htag : ∀ k, ∀ x ∈ f k, tag x = k) (tt : String) :
    (keys.flatMap f).filter (fun x => tag x == tt)
      = if tt ∈ keys then f tt else [] := by
  induction keys with
  | nil => simp
  | cons k ks ih =>
    rw [List.flatMap_cons, List.filter_append]
    have hnd1 := (List.nodup_cons.mp hnd).1
    have hnd2 := (List.nodup_cons.mp hnd).2
    by_cases hk : tt = k
    · subst hk
      have h1 : (f tt).filter (fun x => tag x == tt) = f tt := by
        apply List.filter_eq_self.mpr
        intro a ha
        simp [htag tt a ha]
      have h2 : (ks.flatMap f).filter (fun x => tag x == tt) = [] := by
        rw [ih hnd2]
        simp [hnd1]
      rw [h1, h2]
      simp
    · have h1 : (f k).filter (fun x => tag x == tt) = [] := by
        apply List.filter_eq_nil_iff.mpr
        intro a ha
        simp [htag k a ha]
        exact fun hc => hk hc.symm
      rw [h1, ih hnd2, List.nil_append]
      simp [List.mem_cons, hk]

/-- Claim C7: the exported transition_rules list is grouped by transition
type in ascending sorted order of the type identifier (the projected
sequence of type identifiers is sorted, so equal types are adjacent and
groups appear in ascending order), and within each type it lists exactly
the rules registered for that type, in registration order. -/
theorem export_rules_sorted_grouped (sm : stateMachine E A ε)
    (ko : List String) (so : List (String × StateDoc))
    (tto : List (String × TransitionTypeDoc)) (hko : ValidKeysOrder sm ko) :
    ((Export sm ko so tto).transitionRules.map (fun j => j.transitionType)).Sorted (· ≤ ·)
    ∧ ∀ tt, (Export sm ko so tto).transitionRules.filter (fun j => j.transitionType == tt)
        = (rulesFor sm tt).map (ruleToJSON tt) := by
  have htag : ∀ k, ∀ x ∈ (rulesFor sm k).map (ruleToJSON k), x.transitionType = k := by
    intro k x hx
    obtain ⟨r, hr, hre⟩ := List.mem_map.mp hx
    rw [← hre]
    rfl
  constructor
  · exact sorted_map_tag_flatMap (sortKeys ko) (sortKeys_sorted ko) _ _ htag
  · intro tt
    have hnd : (sortKeys ko).Nodup :=
      ((sortKeys_perm ko).symm).nodup (hko.symm.nodup (List.nodup_dedup _))
    show ((sortKeys ko).flatMap (fun k => (rulesFor sm k).map (ruleToJSON k))).filter
        (fun j => j.transitionType == tt) = _
    rw [filter_flatMap_group (sortKeys ko) hnd _ _ htag tt]
    by_cases hmem : tt ∈ sortKeys ko
    · simp [hmem]
    · have htyne : tt ∉ sm.transitionRules.map (fun r => r.transitionType) := by
        intro hc
        apply hmem
        rw [(sortKeys_perm ko).mem_iff, hko.mem_iff, List.mem_dedup]
        exact hc
      have hempty : rulesFor sm tt = [] := by
        apply List.filter_eq_nil_iff.mpr
        intro r hr hc
        apply htyne
        apply List.mem_map.mpr
        exact ⟨r, hr, by simpa using hc⟩
      simp [hmem, hempty]

def smW7 : stateMachine Unit Unit Unit :=
  AddTransition (AddTransition newStateMachine
    { transitionType := "beta", sourceStates := ["x"], destinationState := "y" })
    { transitionType := "alpha", sourceStates := ["y"], destinationState := "x" }

def koW7 : List String := (smW7.transitionRules.map (fun r => r.transitionType)).dedup

/-- Witness for `export_rules_sorted_grouped`: a machine with a "beta" rule
registered before an "alpha" rule exports its rule list sorted by type,
and the "beta" partition is exactly the registered "beta" rules. -/
theorem export_rules_sorted_grouped_witness :
    ValidKeysOrder smW7 koW7
    ∧ ((Export smW7 koW7 [] []).transitionRules.map (fun j => j.transitionType)).Sorted (· ≤ ·)
    ∧ (Export smW7 koW7 [] []).transitionRules.filter (fun j => j.transitionType == "beta")
        = (rulesFor smW7 "beta").map (ruleToJSON "beta") :=
  ⟨List.Perm.refl _,
    (export_rules_sorted_grouped smW7 koW7 [] [] (List.Perm.refl _)).1,
    (export_rules_sorted_grouped smW7 koW7 [] [] (List.Perm.refl _)).2 "beta"⟩

/-- Claim C8: the exported graph view has exactly one node per documented
state (the node list has one entry per state-documentation entry), and one
edge per source state listed for each exported rule, going to the rule's
destination state, named by the transition-type identifier and carrying
the rule's description. -/
theorem export_graph_nodes_edges (sm : stateMachine E A ε)
    (ko : List String) (so : List (String × StateDoc))
    (tto : List (String × TransitionTypeDoc)) (hso : ValidStateOrder sm so) :
    (Export sm ko so tto).transitionRuleNodes.length = sm.stateDocs.length
    ∧ (Export sm ko so tto).transitionRuleEdges
      = (Export sm ko so tto).transitionRules.flatMap (fun j =>
          j.sourceStates.map (fun s =>
            { fromState := s, toState := j.destinationState,
              description := j.description, name := j.transitionType })) := by
  constructor
  · show (so.map _).length = _
    rw [List.length_map]
    exact List.Perm.length_eq hso
  · show (sortKeys ko).flatMap (fun k => (rulesFor sm k).flatMap (ruleEdges k)) = _
    simp only [Export, List.flatMap_assoc, List.flatMap_map, ruleToJSON, ruleEdges]
    rfl

def smW8 : stateMachine Unit Unit Unit :=
  AddTransition newStateMachine
    { transitionType := "go", sourceStates := ["p", "q"], destinationState := "r",
      documentation := { name := "move", description := "moves" } }

/-- Witness for `export_graph_nodes_edges`: a machine with one two-source
rule and only the pre-registered "initial" state documented exports one
node and one edge per source state of the rule. -/
theorem export_graph_nodes_edges_witness :
    ValidStateOrder smW8 smW8.stateDocs
    ∧ ((Export smW8 ["go"] smW8.stateDocs []).transitionRuleNodes.length
        = smW8.stateDocs.length
      ∧ (Export smW8 ["go"] smW8.stateDocs []).transitionRuleEdges
        = (Export smW8 ["go"] smW8.stateDocs []).transitionRules.flatMap (fun j =>
            j.sourceStates.map (fun s =>
              { fromState := s, toState := j.destinationState,
                description := j.description, name := j.transitionType }))) :=
  ⟨List.Perm.refl _,
    export_graph_nodes_edges smW8 ["go"] smW8.stateDocs [] (List.Perm.refl _)⟩

/-- Operations of the registration API (spec section 6), used to range over
every machine reachable from construction. -/
inductive Op (E A ε : Type) where
  | addTransition (r : TransitionRule E A ε)
  | describeState (s : String) (d : StateDoc)
  | describeTransitionType (t : String) (d : TransitionTypeDoc)

def applyOp (sm : stateMachine E A ε) : Op E A ε → stateMachine E A ε
  | Op.addTransition r => AddTransition sm r
  | Op.describeState s d => DescribeState sm s d
  | Op.describeTransitionType t d => DescribeTransitionType sm t d

/-- Machine obtained by construction followed by a sequence of
registration calls. -/
def buildMachine (ops : List (Op E A ε)) : stateMachine E A ε :=
  ops.foldl applyOp newStateMachine

theorem mem_keys_setAssoc {α : Type} (k k1 : String) (v : α)
    (l : List (String × α)) (h : k ∈ l.map Prod.fst) :
    k ∈ (setAssoc k1 v l).map Prod.fst := by
  induction l with
  | nil => simp at h
  | cons p rest ih =>
    obtain ⟨k0, v0⟩ := p
    rw [setAssoc]
    by_cases he : k1 = k0
    · rw [if_pos he]
      subst he
      exact h
    · rw [if_neg he]
      rcases List.mem_cons.mp h with h0 | h0

      · exact List.mem_cons.mpr (Or.inl h0)
      · exact List.mem_cons.mpr (Or.inr (ih h0))

theorem lookupAssoc_mem_keys {α : Type} (k : String) (l : List (String × α))
    (h : k ∈ l.map Prod.fst) : lookupAssoc k l ≠ none := by
  induction l with
  | nil => simp at h
  | cons p rest ih =>
    obtain ⟨k1, v1⟩ := p
    rw [lookupAssoc]
    by_cases he : k1 = k
    · simp [he]
    · rw [if_neg he]
      apply ih
      rcases List.mem_cons.mp h with h0 | h0
      · exact absurd h0.symm he
      · exact h0

theorem lookupAssoc_setAssoc_self {α : Type} (k : String) (v : α)
    (l : List (String × α)) : lookupAssoc k (setAssoc k v l) = some v := by
  induction l with
  | nil => simp [setAssoc, lookupAssoc]
  | cons p rest ih =>
    obtain ⟨k1, v1⟩ := p
    rw [setAssoc]
    by_cases he : k = k1
    · rw [if_pos he, lookupAssoc, if_pos rfl]
    · rw [if_neg he, lookupAssoc, if_neg (fun hh => he hh.symm)]
      exact ih

theorem initial_mem_applyOp (sm : stateMachine E A ε) (op : Op E A ε)
    (h : "initial" ∈ sm.stateDocs.map Prod.fst) :
    "initial" ∈ (applyOp sm op).stateDocs.map Prod.fst := by
  cases op with
  | addTransition r => exact h
  | describeState s d => exact mem_keys_setAssoc _ _ _ _ h
  | describeTransitionType t d => exact h

theorem initial_mem_buildMachine (ops : List (Op E A ε)) :
    "initial" ∈ (buildMachine ops).stateDocs.map Prod.fst := by
  have hgen : ∀ (sm : stateMachine E A ε), "initial" ∈ sm.stateDocs.map Prod.fst →
      "initial" ∈ (ops.foldl applyOp sm).stateDocs.map Prod.fst := by
    induction ops with
    | nil => exact fun sm h => h
    | cons op rest ih =>
      intro sm h
      exact ih _ (initial_mem_applyOp sm op h)
  apply hgen
  simp [newStateMachine, initStateMachineDocumentation, DescribeState, setAssoc]

/-- Claim C9: for every machine reachable from construction by any sequence
of registration calls, and every valid iteration order, the exported states
map contains the key "initial" (pre-registered at construction time), even
when the caller never documented a state and registered no rule; and a
later DescribeState call for "initial" replaces the pre-registered entry. -/
theorem export_states_always_contain_initial (ops : List (Op E A ε))
    (ko : List String) (so : List (String × StateDoc))
    (tto : List (String × TransitionTypeDoc))
    (hso : ValidStateOrder (buildMachine ops) so) :
    (Export (buildMachine ops) ko so tto).states "initial" ≠ none
    ∧ ∀ (sm : stateMachine E A ε) (d : StateDoc),
        lookupAssoc "initial" (DescribeState sm "initial" d).stateDocs = some d := by
  constructor
  · have hmem : "initial" ∈ so.map Prod.fst :=
      (List.Perm.mem_iff (List.Perm.map Prod.fst hso)).mpr (initial_mem_buildMachine ops)
    have hlk := lookupAssoc_mem_keys "initial" so hmem
    show ((lookupAssoc "initial" so).map _) ≠ none
    simp only [ne_eq, Option.map_eq_none']
    exact hlk
  · intro sm d
    exact lookupAssoc_setAssoc_self "initial" d sm.stateDocs

def soW9 : List (String × StateDoc) :=
  (buildMachine ([] : List (Op Unit Unit Unit))).stateDocs

/-- Witness for `export_states_always_contain_initial`: exporting a freshly
constructed machine, with no rules and no caller documentation, already
yields a states map containing the key "initial". -/
theorem export_states_always_contain_initial_witness :
    ValidStateOrder (buildMachine ([] : List (Op Unit Unit Unit))) soW9
    ∧ (Export (buildMachine ([] : List (Op Unit Unit Unit))) [] soW9 []).states "initial"
        ≠ none :=
  ⟨List.Perm.refl _,
    (export_states_always_contain_initial [] [] soW9 [] (List.Perm.refl _)).1⟩

/-- Claim C10: Export and AsJSON are read-only: each, run as a state
transformer, returns the receiver machine unchanged, so the rule store,
the state documentation map and the transition-type documentation map are
exactly as they were before the call (the Go methods never assign to a
receiver field). -/
theorem export_asJSON_read_only (sm : stateMachine E A ε) (ko : List String)
    (so : List (String × StateDoc)) (tto : List (String × TransitionTypeDoc)) :
    (ExportSt sm ko so tto).2 = sm ∧ (AsJSONSt sm ko so tto).2 = sm :=
  ⟨rfl, rfl⟩

def docA : StateDoc := { name := "A", description := "state a" }

def smC1 : stateMachine Unit Unit Unit := DescribeState newStateMachine "a" docA

def soC1a : List (String × StateDoc) := [("initial", initialStateDoc), ("a", docA)]

def soC1b : List (String × StateDoc) := [("a", docA), ("initial", initialStateDoc)]

theorem smC1_stateDocs : smC1.stateDocs = soC1a := by
  simp [smC1, DescribeState, newStateMachine, initStateMachineDocumentation, setAssoc,
    soC1a]

theorem lookupAssoc_pair_comm {α : Type} (x1 x2 : String) (v1 v2 : α)
    (hne : x1 ≠ x2) (k : String) :
    lookupAssoc k [(x1, v1), (x2, v2)] = lookupAssoc k [(x2, v2), (x1, v1)] := by
  simp only [lookupAssoc]
  by_cases h1 : x1 = k
  · by_cases h2 : x2 = k
    · exact absurd (h1.trans h2.symm) hne
    · simp [h1, h2]
  · by_cases h2 : x2 = k <;> simp [h1, h2]

/-- Claim C1 is false on the code: Export sorts the transition-type keys,
but the transition_rules_nodes slice is built by iterating the stateDocs
map, whose Go iteration order is not fixed.  For a machine with two
documented states ("initial" pre-registered at construction, "a"
documented by the caller) the two iteration orders below are both valid
and produce the same states map, yet the two documents differ: the node
list comes out in a different order, so two exports of the same unchanged
machine need not be equal and the marshalled outputs need not be
byte-identical. -/
theorem export_nodes_depend_on_iteration_order :
    ValidStateOrder smC1 soC1a ∧ ValidStateOrder smC1 soC1b
    ∧ (∀ k, (Export smC1 [] soC1a []).states k = (Export smC1 [] soC1b []).states k)
    ∧ Export smC1 [] soC1a [] ≠ Export smC1 [] soC1b [] := by
  have hdocs := smC1_stateDocs
  refine ⟨by rw [ValidStateOrder, hdocs], ?_, ?_, ?_⟩
  · rw [ValidStateOrder, hdocs]
    exact List.Perm.swap _ _ _
  · intro k
    show ((lookupAssoc k soC1a).map _) = ((lookupAssoc k soC1b).map _)
    rw [soC1a, soC1b, lookupAssoc_pair_comm "initial" "a" _ _ (by decide) k]
  · intro h
    have hn := congrArg (fun d => d.transitionRuleNodes.map (fun n => n.id)) h
    simp [Export, soC1a, soC1b, initialStateDoc, docA] at hn
